import Mathlib

/-!
Verification of the report-assembly engine of `gs2xls.py`.

The Python source is shallowly embedded below: each `def` mirrors one
function (or one row-level body of a loop) of the source, with Python
dictionaries modelled as association lists where the latest binding wins,
Python `getattr(obj, attr, default)` modelled on an explicit raw-attribute
type, and `openpyxl` cells modelled as records of value, hyperlink and
style.  All definitions are computable so that concrete runs can be
evaluated inside proofs.
-/

namespace Gs2xls

/-- A raw attribute as seen through Python attribute access: the attribute
can be missing from the object (`absent`), or present with a value that may
itself be the Python value `None` (`val none`). -/
inductive RawAttr where
  | absent : RawAttr
  | val : Option String → RawAttr
deriving DecidableEq, Repr

/-- Embedding of `getattr(obj, attr, default)`: the default is used only
when the attribute is missing; a present `None` value is returned as is. -/
def getattrOr : RawAttr → String → Option String
  | RawAttr.absent, d => some d
  | RawAttr.val v, _ => v

/-- Embedding of Python `str(x)` on a possibly-`None` string value:
`str(None)` is the text `None`. -/
def pyStr : Option String → String
  | some s => s
  | none => "None"

/-- Lookup in a Python dictionary built by successive assignments,
modelled as an association list where the latest binding for a key wins. -/
def dlookup {β : Type} (d : List (String × β)) (k : String) : Option β :=
  (d.reverse.find? (fun p => p.1 == k)).map (fun p => p.2)

/-- Embedding of the Python call `s.replace("cgs:", "")` used by
`populate_child_title` and `add_layer_group_hyperlinks`: removes the
non-overlapping occurrences of `cgs:` scanning left to right. -/
def stripCgsList : List Char → List Char
  | 'c' :: 'g' :: 's' :: ':' :: rest => stripCgsList rest
  | c :: cs => c :: stripCgsList cs
  | [] => []

/-- String version of `stripCgsList`. -/
def strip_cgs (s : String) : String := String.mk (stripCgsList s.data)

/-- Embedding of the Python call `s.split(", ")` (line 187): splits on each
non-overlapping occurrence of the separator, and the empty string yields a
single empty piece. -/
def splitCommaSpaceList : List Char → List (List Char)
  | ',' :: ' ' :: rest => [] :: splitCommaSpaceList rest
  | c :: cs =>
      match splitCommaSpaceList cs with
      | [] => [[c]]
      | p :: ps => (c :: p) :: ps
  | [] => [[]]

/-- String version of `splitCommaSpaceList`. -/
def splitMembers (s : String) : List String :=
  (splitCommaSpaceList s.data).map String.mk

/-- Embedding of `", ".join(names)` (lines 84 and 108). -/
def joinMembers : List String → String
  | [] => ""
  | [m] => m
  | m :: ms => m ++ ", " ++ joinMembers ms

/-! ### CRS extraction, `extract_epsg_code` (lines 88 to 93) -/

/-- Longest digit run at the head of the character list, mirroring the
greedy regex fragment `\d+`. -/
def digitsPrefix : List Char → List Char
  | [] => []
  | c :: cs => if c.isDigit then c :: digitsPrefix cs else []

/-- Attempt to match the regex `EPSG:\d+` at the head of the list; returns
the digit run on success. -/
def epsgMatch : List Char → Option (List Char)
  | 'E' :: 'P' :: 'S' :: 'G' :: ':' :: rest =>
      match digitsPrefix rest with
      | [] => none
      | d :: ds => some (d :: ds)
  | _ => none

/-- Leftmost match of `EPSG:\d+`, mirroring `re.search` scanning positions
left to right. -/
def findEpsg : List Char → Option (List Char)
  | [] => none
  | c :: cs =>
      match epsgMatch (c :: cs) with
      | some ds => some ds
      | none => findEpsg cs

/-- Embedding of `extract_epsg_code` (lines 88 to 93): the whole matched
token on success, the sentinel otherwise. -/
def extract_epsg_code (s : String) : String :=
  match findEpsg s.data with
  | some ds => String.mk (['E', 'P', 'S', 'G', ':'] ++ ds)
  | none => "N/A"

/-! ### Association resolver, `fetch_group_details` (lines 95 to 133)

The reverse index `group_to_layers` is a Python dictionary filled group by
group (lines 124 to 129); a member name occurring in several groups keeps
the binding of the latest group. Each input pair is the group name together
with its member-name list. -/

/-- Embedding of the `group_to_layers` dictionary built on lines 124 to 129. -/
def group_to_layers (groups : List (String × List String)) : List (String × String) :=
  groups.foldl (fun d p => d ++ p.2.map (fun m => (m, p.1))) []

/-- Embedding of `group_to_layers.get(layer.name, "N/A")` (line 141). -/
def owning_group (d : List (String × String)) (name : String) : String :=
  (dlookup d name).getD "N/A"

/-! ### Lemmas about dictionary lookup -/

theorem dlookup_append {β : Type} (a b : List (String × β)) (k : String) :
    dlookup (a ++ b) k = (dlookup b k).or (dlookup a k) := by
  unfold dlookup
  rw [List.reverse_append, List.find?_append]
  cases b.reverse.find? (fun p => p.1 == k) <;> simp [Option.or]

theorem dlookup_nil {β : Type} (k : String) : dlookup ([] : List (String × β)) k = none := rfl

theorem dlookup_map_const (gname : String) (ms : List String) (k : String) :
    dlookup (ms.map (fun m => (m, gname))) k =
      if k ∈ ms then some gname else none := by
  induction ms with
  | nil => simp [dlookup]
  | cons m ms ih =>
    have h : (m, gname) :: ms.map (fun m => (m, gname)) =
        [(m, gname)] ++ ms.map (fun m => (m, gname)) := rfl
    simp only [List.map_cons, h, dlookup_append, ih]
    by_cases hk : k ∈ ms
    · simp [hk, Option.or]
    · by_cases hmk : m = k
      · subst hmk
        simp [hk, dlookup, Option.or]
      · have hkm : ¬ k ∈ m :: ms := by
          intro hin
          rcases List.mem_cons.mp hin with h1 | h1
          · exact hmk h1.symm
          · exact hk h1
        simp [hk, hkm, dlookup, Option.or, hmk]

theorem dlookup_mem {β : Type} {d : List (String × β)} {k : String} {v : β}
    (h : dlookup d k = some v) : (k, v) ∈ d := by
  unfold dlookup at h
  cases hf : d.reverse.find? (fun p => p.1 == k) with
  | none =>
    rw [hf] at h
    exact Option.noConfusion h
  | some p =>
    rw [hf] at h
    have hp := List.find?_some hf
    have hmem := List.mem_of_find?_eq_some hf
    rw [List.mem_reverse] at hmem
    have hk : p.1 = k := by simpa using hp
    have hv : p.2 = v := Option.some.inj h
    have : p = (k, v) := by
      cases p; simp_all
    rwa [this] at hmem

/-! ### Claim C1 -/

/-- C1: a layer name occurring in some member list resolves, through the
reverse index, to the group name of a group whose member list contains it
(the latest such group, by dictionary overwrite); a name occurring in no
member list resolves to the sentinel. -/
theorem owning_group_correct (groups : List (String × List String)) (name : String) :
    ((∃ p ∈ groups, name ∈ p.2) →
      ∃ p ∈ groups, name ∈ p.2 ∧ owning_group (group_to_layers groups) name = p.1)
    ∧ ((∀ p ∈ groups, name ∉ p.2) →
      owning_group (group_to_layers groups) name = "N/A") := by
  induction groups using List.reverseRecOn with
  | nil =>
    constructor
    · rintro ⟨p, hp, -⟩
      exact absurd hp (List.not_mem_nil p)
    · intro _
      rfl
  | append_singleton gs p ih =>
    have hfold : group_to_layers (gs ++ [p]) =
        group_to_layers gs ++ p.2.map (fun m => (m, p.1)) := by
      unfold group_to_layers
      rw [List.foldl_append]
      rfl
    constructor
    · rintro ⟨q, hq, hname⟩
      by_cases hmem : name ∈ p.2
      · refine ⟨p, by simp, hmem, ?_⟩
        unfold owning_group
        rw [hfold, dlookup_append, dlookup_map_const]
        simp [hmem, Option.or]
      · have hq' : q ∈ gs := by
          rcases List.mem_append.mp hq with h | h
          · exact h
          · exfalso
            have : q = p := by simpa using h
            exact hmem (this ▸ hname)
        obtain ⟨r, hr, hrname, hres⟩ := ih.1 ⟨q, hq', hname⟩
        refine ⟨r, List.mem_append.mpr (Or.inl hr), hrname, ?_⟩
        unfold owning_group at hres ⊢
        rw [hfold, dlookup_append, dlookup_map_const]
        simp only [hmem, if_false]
        simpa [Option.or] using hres
    · intro hall
      have hmem : name ∉ p.2 := hall p (by simp)
      have hgs : ∀ q ∈ gs, name ∉ q.2 := fun q hq =>
        hall q (List.mem_append.mpr (Or.inl hq))
      have hres := ih.2 hgs
      unfold owning_group at hres ⊢
      rw [hfold, dlookup_append, dlookup_map_const]
      simp only [hmem, if_false]
      simpa [Option.or] using hres

/-- Witness for C1 on a concrete catalog: layer `L1` is a member of group
`g1`, so it resolves to `g1`; the name `L9` occurs nowhere and resolves to
the sentinel. -/
theorem owning_group_correct_witness :
    (∃ p ∈ [("g1", ["L1", "L2"]), ("g2", ["L3"])], "L1" ∈ p.2 ∧
      owning_group (group_to_layers [("g1", ["L1", "L2"]), ("g2", ["L3"])]) "L1" = p.1)
    ∧ owning_group (group_to_layers [("g1", ["L1", "L2"]), ("g2", ["L3"])]) "L9" = "N/A" :=
  ⟨(owning_group_correct [("g1", ["L1", "L2"]), ("g2", ["L3"])] "L1").1
      ⟨("g1", ["L1", "L2"]), by decide, by decide⟩,
    (owning_group_correct [("g1", ["L1", "L2"]), ("g2", ["L3"])] "L9").2 (by decide)⟩

/-! ### Claim C7 -/

theorem findEpsg_eq_none (cs : List Char)
    (h : ∀ i, epsgMatch (cs.drop i) = none) : findEpsg cs = none := by
  induction cs with
  | nil => rfl
  | cons c cs ih =>
    have h0 := h 0
    simp only [List.drop_zero] at h0
    unfold findEpsg
    rw [h0]
    exact ih (fun i => h (i + 1))

theorem findEpsg_first (cs : List Char) (ds : List Char)
    (h : findEpsg cs = some ds) :
    ∃ i, epsgMatch (cs.drop i) = some ds ∧ ∀ j < i, epsgMatch (cs.drop j) = none := by
  induction cs with
  | nil => exact absurd h (by simp [findEpsg])
  | cons c cs ih =>
    unfold findEpsg at h
    cases hm : epsgMatch (c :: cs) with
    | some ds2 =>
      rw [hm] at h
      refine ⟨0, ?_, ?_⟩
      · simpa [hm] using h
      · intro j hj
        exact absurd hj (Nat.not_lt_zero j)
    | none =>
      rw [hm] at h
      obtain ⟨i, hi, hfirst⟩ := ih h
      refine ⟨i + 1, by simpa using hi, ?_⟩
      intro j hj
      cases j with
      | zero => simpa using hm
      | succ j =>
        have : j < i := Nat.lt_of_succ_lt_succ hj
        simpa using hfirst j this

/-- C7: `extract_epsg_code` is a pure function of its text; on the two
documented inputs it returns `EPSG:4326` and the sentinel; in general it
returns the sentinel exactly when no position of the text matches
`EPSG:` followed by digits, and otherwise the token of the leftmost match. -/
theorem extract_epsg_code_correct :
    extract_epsg_code "BBOX minx=.. EPSG:4326" = "EPSG:4326"
    ∧ extract_epsg_code "no crs here" = "N/A"
    ∧ (∀ s : String, (∀ i < s.data.length, epsgMatch (s.data.drop i) = none) →
        extract_epsg_code s = "N/A")
    ∧ (∀ (s : String) (ds : List Char), findEpsg s.data = some ds →
        extract_epsg_code s = String.mk (['E', 'P', 'S', 'G', ':'] ++ ds)
        ∧ ∃ i, epsgMatch (s.data.drop i) = some ds
            ∧ ∀ j < i, epsgMatch (s.data.drop j) = none) := by
  refine ⟨by decide, by decide, ?_, ?_⟩
  · intro s h
    unfold extract_epsg_code
    have hall : ∀ i, epsgMatch (s.data.drop i) = none := by
      intro i
      by_cases hi : i < s.data.length
      · exact h i hi
      · rw [List.drop_eq_nil_of_le (Nat.le_of_not_lt hi)]
        rfl
    rw [findEpsg_eq_none s.data hall]
  · intro s ds h
    constructor
    · unfold extract_epsg_code
      rw [h]
    · exact findEpsg_first s.data ds h

/-- Witness for C7: the general clauses applied at concrete inputs; the
text `no crs here` has no match at any position, and the match of
`x EPSG:42` is found at position 2 with no earlier match. -/
theorem extract_epsg_code_correct_witness :
    extract_epsg_code "no crs here" = "N/A"
    ∧ (extract_epsg_code "x EPSG:42" = String.mk (['E', 'P', 'S', 'G', ':'] ++ ['4', '2'])
        ∧ ∃ i, epsgMatch (("x EPSG:42" : String).data.drop i) = some ['4', '2']
            ∧ ∀ j < i, epsgMatch (("x EPSG:42" : String).data.drop j) = none) :=
  ⟨extract_epsg_code_correct.2.2.1 "no crs here" (by decide),
    extract_epsg_code_correct.2.2.2 "x EPSG:42" ['4', '2'] (by decide)⟩

/-! ### Entity normalization, `fetch_group_details` (lines 100 to 122) and
`fetch_layer_details` (lines 139 to 160)

Raw catalog records are modelled attribute by attribute with `RawAttr`, so
that the three source situations are distinguished: attribute present with
a string value, attribute present with the Python value `None`, attribute
missing from the object. -/

/-- Raw layer-group record as consumed on lines 100 to 108. The
`workspace` field is the `name` attribute of the workspace object when
`group.workspace` is not `None`; `members` is the list of member names
read from `group.layers` (line 108), which is mandatory in the source. -/
structure RawGroup where
  workspace : Option RawAttr
  name : RawAttr
  bounds : RawAttr
  title : RawAttr
  mode : RawAttr
  members : List String
deriving DecidableEq, Repr

/-- Normalized layer-group record, the dictionary built on lines 114 to
122. Fields read through `getattr` can still be `None`, hence `Option`. -/
structure NormGroup where
  workspace_name : Option String
  group_name : Option String
  title : Option String
  crs : String
  bounds : String
  mode : Option String
  layers : String
deriving DecidableEq, Repr

/-- Embedding of the per-group body of `fetch_group_details`
(lines 100 to 122). -/
def normalizeGroup (g : RawGroup) : NormGroup :=
  { workspace_name :=
      match g.workspace with
      | none => some "N/A"
      | some a => getattrOr a "N/A"
    group_name := getattrOr g.name "N/A"
    title := getattrOr g.title "N/A"
    crs := extract_epsg_code (pyStr (getattrOr g.bounds "N/A"))
    bounds := pyStr (getattrOr g.bounds "N/A")
    mode := getattrOr g.mode "N/A"
    layers := joinMembers g.members }

/-- Row appended to the Layer Groups sheet (line 406); a `none` entry is a
Python `None` and renders as an empty cell, not as the sentinel. -/
def renderGroupRow (n : NormGroup) : List (Option String) :=
  [n.group_name, n.title, some n.crs, some n.bounds, n.mode, some n.layers]

/-- Raw store object reachable from a layer resource: `name` is read via
`getattr` (line 151) while `workspace.name` is accessed directly
(line 150). -/
structure RawStoreObj where
  name : RawAttr
  workspace_name : String
deriving DecidableEq, Repr

/-- Raw layer record as consumed on lines 139 to 160: `layer.name` is
accessed directly, `store` is `None` or a store object, the remaining
fields are read via `getattr`. -/
structure RawLayer where
  name : String
  store : Option RawStoreObj
  latlon_bbox : RawAttr
  title : RawAttr
  abstract : RawAttr
deriving DecidableEq, Repr

/-- Normalized layer record, the dictionary built on lines 149 to 160. -/
structure NormLayer where
  workspace_name : String
  store_name : Option String
  group_name : String
  name : String
  title : Option String
  default_style : String
  available_styles : String
  crs : String
  bbox : Option String
  abstract : Option String
deriving DecidableEq, Repr

/-- Embedding of the per-layer body of `fetch_layer_details`
(lines 139 to 160); the two style strings are the results of the style
lookups of lines 146 and 147, passed in already computed. -/
def normalizeLayer (gtl : List (String × String))
    (default_style available_styles : String) (l : RawLayer) : NormLayer :=
  { workspace_name :=
      match l.store with
      | none => "N/A"
      | some st => st.workspace_name
    store_name :=
      match l.store with
      | none => some "N/A"
      | some st => getattrOr st.name "N/A"
    group_name := owning_group gtl l.name
    name := l.name
    title := getattrOr l.title "N/A"
    default_style := default_style
    available_styles := available_styles
    crs := extract_epsg_code (pyStr (getattrOr l.latlon_bbox "N/A"))
    bbox := getattrOr l.latlon_bbox "N/A"
    abstract := getattrOr l.abstract "N/A" }

/-- Row appended to the Layers sheet (line 432); `str()` is applied to the
bounding box there, so that cell is always a string. -/
def renderLayerRow (n : NormLayer) : List (Option String) :=
  [some n.workspace_name, n.store_name, some n.group_name, some n.name, n.title,
    some n.default_style, some n.available_styles, some n.crs,
    some (pyStr n.bbox), n.abstract]

/-! ### Claim C6 -/

/-- C6 counterexample input: a layer-group record whose `title` attribute
is present but holds the Python value `None`. -/
def rawGroupNullTitle : RawGroup :=
  { workspace := none
    name := RawAttr.val (some "g1")
    bounds := RawAttr.val (some "box")
    title := RawAttr.val none
    mode := RawAttr.val (some "single")
    members := [] }

/-- C6 counterexample: the claim also covers attributes that are null (not
merely absent) in the raw record, but a null `title` passes through
`getattr(group, "title", "N/A")` unchanged, so the normalized record holds
null and the rendered cell is empty, not the sentinel. -/
theorem normalize_null_not_sentinel :
    rawGroupNullTitle.title = RawAttr.val none
    ∧ (normalizeGroup rawGroupNullTitle).title = none
    ∧ (renderGroupRow (normalizeGroup rawGroupNullTitle)).get? 1 = some none
    ∧ (normalizeGroup rawGroupNullTitle).title ≠ some "N/A" := by
  refine ⟨rfl, rfl, rfl, ?_⟩
  intro h
  exact Option.noConfusion h

/-- C6 amended: every attribute that the source reads through a sentinel
default normalizes to the sentinel when the attribute is absent from the
raw record (for bounding data the derived CRS also falls back to the
sentinel), and rendered rows always keep their full column count; a
present-but-null attribute, by contrast, is passed through as null. -/
theorem normalize_absent_to_sentinel (g : RawGroup) (l : RawLayer)
    (gtl : List (String × String)) (ds as : String) :
    (g.title = RawAttr.absent → (normalizeGroup g).title = some "N/A")
    ∧ (g.mode = RawAttr.absent → (normalizeGroup g).mode = some "N/A")
    ∧ (g.name = RawAttr.absent → (normalizeGroup g).group_name = some "N/A")
    ∧ (g.bounds = RawAttr.absent →
        (normalizeGroup g).bounds = "N/A" ∧ (normalizeGroup g).crs = "N/A")
    ∧ (g.workspace = none → (normalizeGroup g).workspace_name = some "N/A")
    ∧ (g.workspace = some RawAttr.absent →
        (normalizeGroup g).workspace_name = some "N/A")
    ∧ (l.title = RawAttr.absent → (normalizeLayer gtl ds as l).title = some "N/A")
    ∧ (l.abstract = RawAttr.absent →
        (normalizeLayer gtl ds as l).abstract = some "N/A")
    ∧ (l.latlon_bbox = RawAttr.absent →
        pyStr (normalizeLayer gtl ds as l).bbox = "N/A"
        ∧ (normalizeLayer gtl ds as l).crs = "N/A")
    ∧ (l.store = none →
        (normalizeLayer gtl ds as l).workspace_name = "N/A"
        ∧ (normalizeLayer gtl ds as l).store_name = some "N/A")
    ∧ (∀ st, l.store = some st → st.name = RawAttr.absent →
        (normalizeLayer gtl ds as l).store_name = some "N/A")
    ∧ (renderGroupRow (normalizeGroup g)).length = 6
    ∧ (renderLayerRow (normalizeLayer gtl ds as l)).length = 10 := by
  refine ⟨?_, ?_, ?_, ?_, ?_, ?_, ?_, ?_, ?_, ?_, ?_, rfl, rfl⟩
  · intro h; simp [normalizeGroup, h, getattrOr]
  · intro h; simp [normalizeGroup, h, getattrOr]
  · intro h; simp [normalizeGroup, h, getattrOr]
  · intro h
    constructor
    · simp [normalizeGroup, h, getattrOr, pyStr]
    · simp [normalizeGroup, h, getattrOr, pyStr]
      rfl
  · intro h; simp [normalizeGroup, h]
  · intro h; simp [normalizeGroup, h, getattrOr]
  · intro h; simp [normalizeLayer, h, getattrOr]
  · intro h; simp [normalizeLayer, h, getattrOr]
  · intro h
    constructor
    · simp [normalizeLayer, h, getattrOr, pyStr]
    · simp [normalizeLayer, h, getattrOr, pyStr]
      rfl
  · intro h
    constructor
    · simp [normalizeLayer, h]
    · simp [normalizeLayer, h]
  · intro st h hn
    simp [normalizeLayer, h, hn, getattrOr]

/-- Concrete raw group with every guarded attribute absent, for the C6
witness. -/
def rawGroupAllAbsent : RawGroup :=
  { workspace := none
    name := RawAttr.absent
    bounds := RawAttr.absent
    title := RawAttr.absent
    mode := RawAttr.absent
    members := [] }

/-- Concrete raw layer with every guarded attribute absent, for the C6
witness. -/
def rawLayerAllAbsent : RawLayer :=
  { name := "L"
    store := none
    latlon_bbox := RawAttr.absent
    title := RawAttr.absent
    abstract := RawAttr.absent }

/-- Witness for C6 amended: a raw group and a raw layer with every guarded
attribute absent normalize to sentinel values everywhere. -/
theorem normalize_absent_to_sentinel_witness :
    (normalizeGroup rawGroupAllAbsent).title = some "N/A"
    ∧ (normalizeLayer [] "s" "s" rawLayerAllAbsent).workspace_name = "N/A" := by
  have hg := normalize_absent_to_sentinel rawGroupAllAbsent rawLayerAllAbsent [] "s" "s"
  exact ⟨hg.1 rfl, (hg.2.2.2.2.2.2.2.2.2.1 rfl).1⟩

/-! ### Style lookups, `fetch_default_style` (lines 59 to 69) and
`fetch_available_styles` (lines 71 to 86)

The HTTP call of `requests.get` either raises a transport exception,
modelled as the `Except.error` case and propagated by the caller because
the source has no handler for it, or returns a response with a status code
and a parsed JSON body. -/

/-- Transport-level failure of `requests.get`: the source does not catch
it, so it aborts the run. -/
inductive NetErr where
  | connError : String → NetErr
deriving DecidableEq, Repr

/-- Parsed JSON body of the per-layer endpoint. `defaultStyleName` is the
result of the chained `.get("layer", ...).get("defaultStyle", ...)`
access of line 66 with `none` when any level is missing; `styles` is
`none` unless `layer.styles` is a dictionary containing a `style` list
(lines 80 to 82); inside the list a `none` entry is a non-dictionary item
skipped by the `isinstance` filter, and a kept item carries its optional
`name` key. -/
structure LayerJson where
  defaultStyleName : Option String
  styles : Option (List (Option (Option String)))
deriving DecidableEq, Repr

/-- HTTP response of the per-layer endpoint. -/
structure HttpResponse where
  status_code : Nat
  body : LayerJson
deriving DecidableEq, Repr

/-- Embedding of `fetch_default_style` (lines 59 to 69). -/
def fetch_default_style (r : Except NetErr HttpResponse) : Except NetErr String :=
  match r with
  | Except.error e => Except.error e
  | Except.ok resp =>
      Except.ok (if resp.status_code = 200 then resp.body.defaultStyleName.getD "N/A"
        else "N/A")

/-- Embedding of `fetch_available_styles` (lines 71 to 86). -/
def fetch_available_styles (r : Except NetErr HttpResponse) : Except NetErr String :=
  match r with
  | Except.error e => Except.error e
  | Except.ok resp =>
      Except.ok (if resp.status_code = 200 then
        match resp.body.styles with
        | some entries =>
            match (entries.filterMap id).map (fun nm => nm.getD "N/A") with
            | [] => "N/A"
            | a :: avail => joinMembers (a :: avail)
        | none => "N/A"
      else "N/A")

/-- Embedding of the per-layer step of `fetch_layer_details`
(lines 139 to 160) at the error boundary: both style lookups are executed
and an uncaught transport error aborts the whole step. -/
def fetch_layer_entry (gtl : List (String × String)) (l : RawLayer)
    (rds ras : Except NetErr HttpResponse) : Except NetErr NormLayer :=
  match fetch_default_style rds with
  | Except.error e => Except.error e
  | Except.ok d =>
      match fetch_available_styles ras with
      | Except.error e => Except.error e
      | Except.ok a => Except.ok (normalizeLayer gtl d a l)

/-! ### Claim C8 -/

/-- C8: a style lookup that returns an unsuccessful HTTP response degrades
only the affected field to the sentinel and the per-layer step still
succeeds, while a transport-level failure (hard adapter failure)
propagates and aborts the step. -/
theorem style_lookup_failure_degrades (r : Except NetErr HttpResponse) :
    (∀ resp, r = Except.ok resp → resp.status_code ≠ 200 →
      fetch_default_style r = Except.ok "N/A"
      ∧ fetch_available_styles r = Except.ok "N/A")
    ∧ (∀ e, r = Except.error e →
      fetch_default_style r = Except.error e
      ∧ fetch_available_styles r = Except.error e)
    ∧ (∀ gtl l resp ras a, r = Except.ok resp → resp.status_code ≠ 200 →
      fetch_available_styles ras = Except.ok a →
      fetch_layer_entry gtl l r ras = Except.ok (normalizeLayer gtl "N/A" a l)) := by
  refine ⟨?_, ?_, ?_⟩
  · intro resp hr hs
    subst hr
    constructor
    · simp [fetch_default_style, hs]
    · simp [fetch_available_styles, hs]
  · intro e hr
    subst hr
    exact ⟨rfl, rfl⟩
  · intro gtl l resp ras a hr hs ha
    subst hr
    unfold fetch_layer_entry
    rw [ha]
    simp [fetch_default_style, hs]

/-- Concrete raw layer used by the C8 witness. -/
def rawLayerC8 : RawLayer :=
  { name := "L"
    store := none
    latlon_bbox := RawAttr.absent
    title := RawAttr.absent
    abstract := RawAttr.absent }

/-- Witness for C8: a 404 response yields the sentinel for both style
fields and the per-layer step still succeeds; a connection error
propagates. -/
theorem style_lookup_failure_degrades_witness :
    fetch_default_style (Except.ok ⟨404, ⟨some "s1", none⟩⟩) = Except.ok "N/A"
    ∧ fetch_default_style (Except.error (NetErr.connError "down"))
        = Except.error (NetErr.connError "down")
    ∧ fetch_layer_entry [] rawLayerC8
        (Except.ok ⟨404, ⟨some "s1", none⟩⟩) (Except.ok ⟨404, ⟨none, none⟩⟩)
      = Except.ok (normalizeLayer [] "N/A" "N/A" rawLayerC8) :=
  ⟨((style_lookup_failure_degrades (Except.ok ⟨404, ⟨some "s1", none⟩⟩)).1
      ⟨404, ⟨some "s1", none⟩⟩ rfl (by decide)).1,
    ((style_lookup_failure_degrades (Except.error (NetErr.connError "down"))).2.1
      (NetErr.connError "down") rfl).1,
    (style_lookup_failure_degrades (Except.ok ⟨404, ⟨some "s1", none⟩⟩)).2.2
      [] rawLayerC8 ⟨404, ⟨some "s1", none⟩⟩ (Except.ok ⟨404, ⟨none, none⟩⟩)
      "N/A" rfl (by decide) rfl⟩

/-! ### Sheet model

A worksheet cell carries a value plus the presentation metadata that the
annotation passes attach; sheet-level records hold the string values of the
normalized dictionaries as consumed by `create_group_worksheets`. -/

/-- A spreadsheet cell: value, optional hyperlink target, optional named
cell style. -/
structure Cell where
  value : String
  hyperlink : Option String := none
  style : Option String := none
deriving DecidableEq, Repr

/-- Cell holding a freshly appended value (no presentation metadata yet). -/
def vcell (v : String) : Cell := { value := v }

/-- Normalized layer record as consumed by the worksheet code, with the
string values of the dictionary of lines 149 to 160. -/
structure LayerRec where
  workspace_name : String
  store : String
  group_name : String
  name : String
  title : String
  default_style : String
  available_styles : String
  crs : String
  bbox : String
  abstract : String
deriving DecidableEq, Repr

/-- Normalized layer-group record as consumed by the worksheet code, with
the string values of the dictionary of lines 114 to 122; `layers` is the
comma-joined member-name string of line 108. -/
structure GroupRec where
  workspace_name : String
  group_name : String
  title : String
  crs : String
  bounds : String
  mode : String
  layers : String
deriving DecidableEq, Repr

/-- One data row of a group sub-worksheet, eight columns in sheet order
(line 184): Workspace, Store, Group, Group title, Type, Layer, Child
title, Style. -/
structure GRow where
  ws : Cell
  store : Cell
  grp : Cell
  gtitle : Cell
  typ : Cell
  member : Cell
  ctitle : Cell
  sty : Cell
deriving DecidableEq, Repr

/-- Embedding of the row body of `create_group_worksheets`
(lines 187 to 212): the first layer whose name equals the member name
classifies the row as `Layer`; with no match the row is the
`Layer Group` fallback. -/
def groupMemberRow (layers : List LayerRec) (g : GroupRec) (member_name : String) : GRow :=
  match layers.find? (fun l => l.name == member_name) with
  | some ml =>
      ⟨vcell ml.workspace_name, vcell ml.store, vcell g.group_name, vcell g.title,
        vcell "Layer", vcell ml.name, vcell ml.title, vcell ml.default_style⟩
  | none =>
      ⟨vcell g.workspace_name, vcell "N/A", vcell g.group_name, vcell g.title,
        vcell "Layer Group", vcell member_name, vcell "N/A", vcell "N/A"⟩

/-- Embedding of the data rows of one group sub-worksheet (line 187): the
serialized member string is split back on the separator. -/
def groupSheetRows (layers : List LayerRec) (g : GroupRec) : List GRow :=
  (splitMembers g.layers).map (groupMemberRow layers g)

/-- Mapping from group name to title read off the Layer Groups worksheet
(line 235); that worksheet lists the group records of line 406. -/
def lgTitleSheet (groups : List GroupRec) : List (String × String) :=
  groups.map (fun q => (q.group_name, q.title))

/-- Embedding of the row body of `populate_child_title` (lines 237 to
241): on a `Layer Group` row the member name, with `cgs:` occurrences
removed, is looked up in the Layer Groups mapping and on success replaces
the Child title value. -/
def pctRow (lgSheet : List (String × String)) (r : GRow) : GRow :=
  if r.typ.value = "Layer Group" then
    match dlookup lgSheet (strip_cgs r.member.value) with
    | some t => { r with ctitle := { r.ctitle with value := t } }
    | none => r
  else r

/-! ### Cross-reference lookup tables and annotation passes
(`link_columns_with_sheets`, lines 294 to 334, and
`add_layer_group_hyperlinks`, lines 243 to 253) -/

/-- Lookup table built from the key column of a sheet, mapping each key to
its worksheet row number (data starts on row 2, after the header); a key
occurring twice keeps the later row, as in the Python dictionary
comprehensions of lines 297 to 301. -/
def mkLookup (keys : List String) : List (String × Nat) :=
  keys.enum.map (fun p => (p.2, p.1 + 2))

/-- Destination address formats of lines 297 to 301 and 252. -/
def wsAddr (n : Nat) : String := "#Workspaces!A" ++ toString n

/-- Destination format for the Stores sheet. -/
def stAddr (n : Nat) : String := "#Stores!B" ++ toString n

/-- Destination format for the Layer Groups sheet. -/
def gpAddr (n : Nat) : String := "#\x27Layer Groups\x27!A" ++ toString n

/-- Destination format for the Layers sheet. -/
def lyAddr (n : Nat) : String := "#Layers!D" ++ toString n

/-- Destination format for the Styles sheet. -/
def syAddr (n : Nat) : String := "#Styles!A" ++ toString n

/-- Attaching a hyperlink and the `Hyperlink` named style to a cell, the
two assignments done on each annotated cell. -/
def setLink (c : Cell) (dest : String) : Cell :=
  { c with hyperlink := some dest, style := some "Hyperlink" }

/-- Conditionally annotate one cell against one lookup table, the `if x in
lookup` body repeated on lines 312 to 334. -/
def linkCell (keys : List String) (mk : Nat → String) (c : Cell) : Cell :=
  match dlookup (mkLookup keys) c.value with
  | some n => setLink c (mk n)
  | none => c

/-- Embedding of the row body of `link_columns_with_sheets`
(lines 304 to 334): columns Workspace, Store, Group, Layer and Style are
annotated against their respective sheets. -/
def link_columns_row (wsK stK gpK lyK syK : List String) (r : GRow) : GRow :=
  { r with
    ws := linkCell wsK wsAddr r.ws
    store := linkCell stK stAddr r.store
    grp := linkCell gpK gpAddr r.grp
    member := linkCell lyK lyAddr r.member
    sty := linkCell syK syAddr r.sty }

/-- Embedding of the row body of `add_layer_group_hyperlinks`
(lines 248 to 253): on a `Layer Group` row the member cell is annotated
with the Layer Groups row of the member name with `cgs:` removed, when
that group exists. -/
def lgLinkRow (gpK : List String) (r : GRow) : GRow :=
  if r.typ.value = "Layer Group" then
    match dlookup (mkLookup gpK) (strip_cgs r.member.value) with
    | some n => { r with member := setLink r.member (gpAddr n) }
    | none => r
  else r

/-! ### Claim C2 -/

/-- C2: a membership row is classified `Layer` exactly when the member
name equals the name of some known layer, so a name matching both a layer
and a group is classified `Layer`, and any other member name, group or
not, gives the `Layer Group` classification. -/
theorem member_classification (layers : List LayerRec) (g : GroupRec) (m : String)
    (_hm : m ∈ splitMembers g.layers) :
    ((∃ l ∈ layers, l.name = m) → (groupMemberRow layers g m).typ.value = "Layer")
    ∧ ((∀ l ∈ layers, l.name ≠ m) →
        (groupMemberRow layers g m).typ.value = "Layer Group") := by
  unfold groupMemberRow
  cases hfind : layers.find? (fun l => l.name == m) with
  | some ml =>
    constructor
    · intro _
      rfl
    · intro hall
      have hml := List.find?_some hfind
      have hmem := List.mem_of_find?_eq_some hfind
      exact absurd (by simpa using hml) (hall ml hmem)
  | none =>
    constructor
    · rintro ⟨l, hl, hname⟩
      have := List.find?_eq_none.mp hfind l hl
      simp [hname] at this
    · intro _
      rfl

/-- Concrete layer for the C2 witness. -/
def layerC2 : LayerRec :=
  { workspace_name := "w1", store := "st1", group_name := "g1", name := "L1",
    title := "t", default_style := "s1", available_styles := "s1", crs := "N/A",
    bbox := "b", abstract := "a" }

/-- Concrete group for the C2 witness, whose member string lists the layer
`L1` and the unknown name `ghost`. -/
def groupC2 : GroupRec :=
  { workspace_name := "w1", group_name := "g1", title := "G", crs := "N/A",
    bounds := "b", mode := "single", layers := "L1, ghost" }

/-- Witness for C2: in a concrete catalog the member `L1` is classified
`Layer` and the member `ghost`, matching no layer and no group, is
classified `Layer Group`. -/
theorem member_classification_witness :
    (groupMemberRow [layerC2] groupC2 "L1").typ.value = "Layer"
    ∧ (groupMemberRow [layerC2] groupC2 "ghost").typ.value = "Layer Group" :=
  ⟨(member_classification [layerC2] groupC2 "L1" (by decide)).1
      ⟨layerC2, by decide, by decide⟩,
    (member_classification [layerC2] groupC2 "ghost" (by decide)).2 (by decide)⟩

/-! ### Claim C10 -/

/-- C10: a group whose serialized member string is empty synthesizes
exactly one data row, with empty member name and type `Layer Group`,
because splitting the empty joined string yields one empty piece. -/
theorem empty_member_string_one_row (layers : List LayerRec) (g : GroupRec)
    (hg : g.layers = "") (hl : ∀ l ∈ layers, l.name ≠ "") :
    groupSheetRows layers g = [groupMemberRow layers g ""]
    ∧ (groupMemberRow layers g "").member.value = ""
    ∧ (groupMemberRow layers g "").typ.value = "Layer Group" := by
  have hfind : layers.find? (fun l => l.name == "") = none := by
    rw [List.find?_eq_none]
    intro l hlmem
    simpa using hl l hlmem
  refine ⟨?_, ?_, ?_⟩
  · unfold groupSheetRows
    rw [hg]
    rfl
  · unfold groupMemberRow
    rw [hfind]
    rfl
  · unfold groupMemberRow
    rw [hfind]
    rfl

/-- Concrete empty group for the C10 witness. -/
def groupC10 : GroupRec :=
  { workspace_name := "w1", group_name := "g0", title := "G0", crs := "N/A",
    bounds := "b", mode := "single", layers := "" }

/-- Witness for C10: the empty group synthesizes one `Layer Group` row
with empty member name. -/
theorem empty_member_string_one_row_witness :
    groupSheetRows [layerC2] groupC10 = [groupMemberRow [layerC2] groupC10 ""]
    ∧ (groupMemberRow [layerC2] groupC10 "").member.value = ""
    ∧ (groupMemberRow [layerC2] groupC10 "").typ.value = "Layer Group" :=
  empty_member_string_one_row [layerC2] groupC10 rfl (by decide)

/-! ### Claim C3 -/

/-- C3 counterexample data: the catalog has a group named `g3`; another
group lists the member `cgs:g3`, which is the name of no layer and of no
group. -/
def groupC3owner : GroupRec :=
  { workspace_name := "w1", group_name := "g2", title := "T2", crs := "N/A",
    bounds := "b", mode := "single", layers := "cgs:g3" }

/-- The group `g3` referenced, prefix-qualified, by `groupC3owner`. -/
def groupC3target : GroupRec :=
  { workspace_name := "w1", group_name := "g3", title := "T3", crs := "N/A",
    bounds := "b", mode := "single", layers := "L1" }

/-- C3 counterexample: the member name `cgs:g3` equals the name of no
group, so under the claim its member title must stay the sentinel; but
`populate_child_title` strips `cgs:` before the lookup and fills in the
title of `g3`. -/
theorem populate_child_title_counterexample :
    (∀ p ∈ lgTitleSheet [groupC3owner, groupC3target], p.1 ≠ "cgs:g3")
    ∧ (pctRow (lgTitleSheet [groupC3owner, groupC3target])
        (groupMemberRow [] groupC3owner "cgs:g3")).ctitle.value = "T3"
    ∧ ("T3" : String) ≠ "N/A" := by
  refine ⟨by decide, by decide, by decide⟩

/-- C3 amended: a membership row classified `Layer Group` carries the
owning group workspace, sentinel store, member type `Layer Group` and
sentinel style; its member title is the title recorded in the Layer
Groups sheet for the group whose name equals the member name with the
occurrences of `cgs:` removed, and stays the sentinel when no such group
exists. -/
theorem layer_group_row_fields (groups : List GroupRec) (layers : List LayerRec)
    (g : GroupRec) (m : String) (h : ∀ l ∈ layers, l.name ≠ m) :
    (pctRow (lgTitleSheet groups) (groupMemberRow layers g m)).ws.value = g.workspace_name
    ∧ (pctRow (lgTitleSheet groups) (groupMemberRow layers g m)).store.value = "N/A"
    ∧ (pctRow (lgTitleSheet groups) (groupMemberRow layers g m)).typ.value = "Layer Group"
    ∧ (pctRow (lgTitleSheet groups) (groupMemberRow layers g m)).sty.value = "N/A"
    ∧ (pctRow (lgTitleSheet groups) (groupMemberRow layers g m)).gtitle.value = g.title
    ∧ (pctRow (lgTitleSheet groups) (groupMemberRow layers g m)).member.value = m
    ∧ (pctRow (lgTitleSheet groups) (groupMemberRow layers g m)).ctitle.value
        = (dlookup (lgTitleSheet groups) (strip_cgs m)).getD "N/A" := by
  have hfind : layers.find? (fun l => l.name == m) = none := by
    rw [List.find?_eq_none]
    intro l hlmem
    simpa using h l hlmem
  have hrow : groupMemberRow layers g m =
      ⟨vcell g.workspace_name, vcell "N/A", vcell g.group_name, vcell g.title,
        vcell "Layer Group", vcell m, vcell "N/A", vcell "N/A"⟩ := by
    unfold groupMemberRow
    rw [hfind]
  rw [hrow]
  unfold pctRow
  cases hdl : dlookup (lgTitleSheet groups) (strip_cgs m) with
  | some t => simp [hdl, vcell]
  | none => simp [hdl, vcell]

/-- Witness for C3 amended: the row for member `g3` of a group listing an
existing group by its exact name carries the title of `g3`, and the row
for the unknown member `ghost` keeps the sentinel title. -/
theorem layer_group_row_fields_witness :
    (pctRow (lgTitleSheet [groupC3owner, groupC3target])
        (groupMemberRow [] groupC3owner "g3")).ctitle.value
      = (dlookup (lgTitleSheet [groupC3owner, groupC3target]) (strip_cgs "g3")).getD "N/A"
    ∧ (pctRow (lgTitleSheet [groupC3owner, groupC3target])
        (groupMemberRow [] groupC3owner "ghost")).store.value = "N/A" :=
  ⟨(layer_group_row_fields [groupC3owner, groupC3target] [] groupC3owner "g3"
      (by decide)).2.2.2.2.2.2,
    (layer_group_row_fields [groupC3owner, groupC3target] [] groupC3owner "ghost"
      (by decide)).2.1⟩

/-! ### Claim C9 -/

/-- Data values of a group-sheet row, in column order. -/
def rowValues (r : GRow) : List String :=
  [r.ws.value, r.store.value, r.grp.value, r.gtitle.value, r.typ.value,
    r.member.value, r.ctitle.value, r.sty.value]

theorem linkCell_value (keys : List String) (mk : Nat → String) (c : Cell) :
    (linkCell keys mk c).value = c.value := by
  unfold linkCell
  cases dlookup (mkLookup keys) c.value <;> rfl

/-- C9: the cross-reference annotation pass, composed of the row bodies of
`link_columns_with_sheets` and `add_layer_group_hyperlinks`, never changes
any cell value of any row: it only attaches hyperlink targets and cell
styles. -/
theorem annotation_preserves_values (wsK stK gpK lyK syK : List String) (r : GRow) :
    rowValues (lgLinkRow gpK (link_columns_row wsK stK gpK lyK syK r)) = rowValues r := by
  unfold lgLinkRow link_columns_row
  split
  · split
    · simp [rowValues, setLink, linkCell_value]
    · simp [rowValues, linkCell_value]
  · simp [rowValues, linkCell_value]

/-! ### Claim C4 -/

theorem mem_of_index {α : Type} {l : List α} {i : Nat} {v : α}
    (h : l[i]? = some v) : v ∈ l := by
  obtain ⟨hi, he⟩ := List.getElem?_eq_some_iff.mp h
  exact he ▸ List.getElem_mem hi

theorem mkLookup_mem {keys : List String} {p : String × Nat} :
    p ∈ mkLookup keys ↔ ∃ i, keys[i]? = some p.1 ∧ p.2 = i + 2 := by
  unfold mkLookup
  rw [List.mem_map]
  constructor
  · rintro ⟨q, hq, hfq⟩
    rw [List.mem_enum_iff_getElem?] at hq
    refine ⟨q.1, ?_, ?_⟩
    · rw [← hfq] at *
      exact hq
    · rw [← hfq]
  · rintro ⟨i, hi, hp⟩
    refine ⟨(i, p.1), ?_, ?_⟩
    · rw [List.mem_enum_iff_getElem?]
      exact hi
    · cases p
      simp_all

theorem dlookup_mkLookup_some {keys : List String} {v : String} {n : Nat}
    (h : dlookup (mkLookup keys) v = some n) :
    ∃ i, keys[i]? = some v ∧ n = i + 2 := by
  have := mkLookup_mem.mp (dlookup_mem h)
  simpa using this

theorem dlookup_mkLookup_none {keys : List String} {v : String} :
    dlookup (mkLookup keys) v = none ↔ v ∉ keys := by
  constructor
  · intro h hv
    obtain ⟨i, hi⟩ := List.getElem?_of_mem hv
    have hmem : (v, i + 2) ∈ mkLookup keys := mkLookup_mem.mpr ⟨i, hi, rfl⟩
    unfold dlookup at h
    rw [Option.map_eq_none'] at h
    have := List.find?_eq_none.mp h (v, i + 2) (List.mem_reverse.mpr hmem)
    simp at this
  · intro hv
    unfold dlookup
    rw [Option.map_eq_none', List.find?_eq_none]
    intro p hp
    have hpmem := List.mem_reverse.mp hp
    obtain ⟨i, hi, -⟩ := mkLookup_mem.mp hpmem
    intro hbeq
    have : p.1 = v := by simpa using hbeq
    exact hv (this ▸ mem_of_index hi)

/-- The cross-reference contract of one cell against one sheet: when the
cell value is a key of the sheet, the cell carries a hyperlink to a data
row of that sheet that holds this very key (row numbers are offset by the
header row); when the value is no key of the sheet, the cell carries no
hyperlink. -/
def AnnotatedTo (keys : List String) (mk : Nat → String) (v : String) (c : Cell) : Prop :=
  (v ∈ keys → ∃ i, keys[i]? = some v ∧ c.hyperlink = some (mk (i + 2)))
  ∧ (v ∉ keys → c.hyperlink = none)

/-- Core of the conditional annotation of one cell: lookup of an arbitrary
probe string, used with the cell value by `link_columns_with_sheets` and
with the `cgs:`-stripped value by `add_layer_group_hyperlinks`. -/
def annotateWith (keys : List String) (mk : Nat → String) (v : String) (c : Cell) : Cell :=
  match dlookup (mkLookup keys) v with
  | some n => setLink c (mk n)
  | none => c

theorem linkCell_eq_annotateWith (keys : List String) (mk : Nat → String) (c : Cell) :
    linkCell keys mk c = annotateWith keys mk c.value c := rfl

theorem annotateWith_annotates (keys : List String) (mk : Nat → String)
    (v : String) (c : Cell) (hc : c.hyperlink = none) :
    AnnotatedTo keys mk v (annotateWith keys mk v c) := by
  unfold annotateWith
  cases hdl : dlookup (mkLookup keys) v with
  | some n =>
    constructor
    · intro _
      obtain ⟨i, hi, hn⟩ := dlookup_mkLookup_some hdl
      exact ⟨i, hi, by simp [setLink, hn]⟩
    · intro hv
      exact absurd (dlookup_mkLookup_none.mpr hv) (by simp [hdl])
  | none =>
    constructor
    · intro hv
      exact absurd (dlookup_mkLookup_none.mp hdl) (by simp [hv])
    · intro _
      exact hc

theorem annotateWith_value (keys : List String) (mk : Nat → String)
    (v : String) (c : Cell) : (annotateWith keys mk v c).value = c.value := by
  unfold annotateWith
  cases dlookup (mkLookup keys) v <;> rfl

theorem lgLinkRow_of_ne (gpK : List String) (r : GRow)
    (hty : r.typ.value ≠ "Layer Group") : lgLinkRow gpK r = r := by
  unfold lgLinkRow
  rw [if_neg hty]

theorem lgLinkRow_fields (gpK : List String) (r : GRow)
    (hty : r.typ.value = "Layer Group") :
    (lgLinkRow gpK r).member
        = annotateWith gpK gpAddr (strip_cgs r.member.value) r.member
    ∧ (lgLinkRow gpK r).ws = r.ws
    ∧ (lgLinkRow gpK r).store = r.store
    ∧ (lgLinkRow gpK r).grp = r.grp
    ∧ (lgLinkRow gpK r).gtitle = r.gtitle
    ∧ (lgLinkRow gpK r).typ = r.typ
    ∧ (lgLinkRow gpK r).ctitle = r.ctitle
    ∧ (lgLinkRow gpK r).sty = r.sty := by
  unfold lgLinkRow annotateWith
  rw [if_pos hty]
  cases dlookup (mkLookup gpK) (strip_cgs r.member.value) <;> simp

/-- Behaviour of the full annotation pass on one row whose cells carry no
prior hyperlink: the five designated columns follow the cross-reference
contract of their sheet, the remaining columns stay unannotated, and the
member cell of a `Layer Group` row not matching any layer key follows the
contract of the Layer Groups sheet through the `cgs:`-stripped name. -/
theorem link_passes_spec (wsK stK gpK lyK syK : List String) (r : GRow)
    (h0 : r.ws.hyperlink = none) (h1 : r.store.hyperlink = none)
    (h2 : r.grp.hyperlink = none) (h3 : r.gtitle.hyperlink = none)
    (h4 : r.typ.hyperlink = none) (h5 : r.member.hyperlink = none)
    (h6 : r.ctitle.hyperlink = none) (h7 : r.sty.hyperlink = none) :
    AnnotatedTo wsK wsAddr r.ws.value
      (lgLinkRow gpK (link_columns_row wsK stK gpK lyK syK r)).ws
    ∧ AnnotatedTo stK stAddr r.store.value
      (lgLinkRow gpK (link_columns_row wsK stK gpK lyK syK r)).store
    ∧ AnnotatedTo gpK gpAddr r.grp.value
      (lgLinkRow gpK (link_columns_row wsK stK gpK lyK syK r)).grp
    ∧ AnnotatedTo syK syAddr r.sty.value
      (lgLinkRow gpK (link_columns_row wsK stK gpK lyK syK r)).sty
    ∧ (lgLinkRow gpK (link_columns_row wsK stK gpK lyK syK r)).gtitle.hyperlink = none
    ∧ (lgLinkRow gpK (link_columns_row wsK stK gpK lyK syK r)).ctitle.hyperlink = none
    ∧ (lgLinkRow gpK (link_columns_row wsK stK gpK lyK syK r)).typ.hyperlink = none
    ∧ (r.typ.value ≠ "Layer Group" → AnnotatedTo lyK lyAddr r.member.value
      (lgLinkRow gpK (link_columns_row wsK stK gpK lyK syK r)).member)
    ∧ (r.typ.value = "Layer Group" → r.member.value ∉ lyK →
      AnnotatedTo gpK gpAddr (strip_cgs r.member.value)
        (lgLinkRow gpK (link_columns_row wsK stK gpK lyK syK r)).member) := by
  have hlws : (link_columns_row wsK stK gpK lyK syK r).ws = linkCell wsK wsAddr r.ws := rfl
  have hlst : (link_columns_row wsK stK gpK lyK syK r).store = linkCell stK stAddr r.store := rfl
  have hlgp : (link_columns_row wsK stK gpK lyK syK r).grp = linkCell gpK gpAddr r.grp := rfl
  have hlsy : (link_columns_row wsK stK gpK lyK syK r).sty = linkCell syK syAddr r.sty := rfl
  have hlmem : (link_columns_row wsK stK gpK lyK syK r).member = linkCell lyK lyAddr r.member := rfl
  have hlgt : (link_columns_row wsK stK gpK lyK syK r).gtitle = r.gtitle := rfl
  have hlct : (link_columns_row wsK stK gpK lyK syK r).ctitle = r.ctitle := rfl
  have hlty : (link_columns_row wsK stK gpK lyK syK r).typ = r.typ := rfl
  by_cases hty : r.typ.value = "Layer Group"
  · obtain ⟨hm, hws, hst, hgp, hgt, htp, hct, hsy⟩ :=
      lgLinkRow_fields gpK (link_columns_row wsK stK gpK lyK syK r)
        (by rw [hlty]; exact hty)
    refine ⟨?_, ?_, ?_, ?_, ?_, ?_, ?_, ?_, ?_⟩
    · rw [hws, hlws, linkCell_eq_annotateWith]
      exact annotateWith_annotates wsK wsAddr r.ws.value r.ws h0
    · rw [hst, hlst, linkCell_eq_annotateWith]
      exact annotateWith_annotates stK stAddr r.store.value r.store h1
    · rw [hgp, hlgp, linkCell_eq_annotateWith]
      exact annotateWith_annotates gpK gpAddr r.grp.value r.grp h2
    · rw [hsy, hlsy, linkCell_eq_annotateWith]
      exact annotateWith_annotates syK syAddr r.sty.value r.sty h7
    · rw [hgt, hlgt]
      exact h3
    · rw [hct, hlct]
      exact h6
    · rw [htp, hlty]
      exact h4
    · intro hne
      exact absurd hty hne
    · intro _ hnot
      have hdln : dlookup (mkLookup lyK) r.member.value = none :=
        dlookup_mkLookup_none.mpr hnot
      have hcell : linkCell lyK lyAddr r.member = r.member := by
        unfold linkCell
        rw [hdln]
      rw [hm, hlmem, hcell]
      have hval : (r.member).value = r.member.value := rfl
      exact annotateWith_annotates gpK gpAddr (strip_cgs r.member.value) r.member h5
  · have hr : lgLinkRow gpK (link_columns_row wsK stK gpK lyK syK r)
        = link_columns_row wsK stK gpK lyK syK r :=
      lgLinkRow_of_ne gpK _ (by rw [hlty]; exact hty)
    refine ⟨?_, ?_, ?_, ?_, ?_, ?_, ?_, ?_, ?_⟩
    · rw [hr, hlws, linkCell_eq_annotateWith]
      exact annotateWith_annotates wsK wsAddr r.ws.value r.ws h0
    · rw [hr, hlst, linkCell_eq_annotateWith]
      exact annotateWith_annotates stK stAddr r.store.value r.store h1
    · rw [hr, hlgp, linkCell_eq_annotateWith]
      exact annotateWith_annotates gpK gpAddr r.grp.value r.grp h2
    · rw [hr, hlsy, linkCell_eq_annotateWith]
      exact annotateWith_annotates syK syAddr r.sty.value r.sty h7
    · rw [hr, hlgt]
      exact h3
    · rw [hr, hlct]
      exact h6
    · rw [hr, hlty]
      exact h4
    · intro _
      rw [hr, hlmem, linkCell_eq_annotateWith]
      exact annotateWith_annotates lyK lyAddr r.member.value r.member h5
    · intro heq _
      exact absurd heq hty

theorem pctRow_fields (s : List (String × String)) (r : GRow) :
    (pctRow s r).ws = r.ws ∧ (pctRow s r).store = r.store
    ∧ (pctRow s r).grp = r.grp ∧ (pctRow s r).gtitle = r.gtitle
    ∧ (pctRow s r).typ = r.typ ∧ (pctRow s r).member = r.member
    ∧ (pctRow s r).sty = r.sty
    ∧ (pctRow s r).ctitle.hyperlink = r.ctitle.hyperlink := by
  unfold pctRow
  split
  · split <;> simp
  · simp

theorem groupMemberRow_no_hyperlinks (layers : List LayerRec) (g : GroupRec) (m : String) :
    (groupMemberRow layers g m).ws.hyperlink = none
    ∧ (groupMemberRow layers g m).store.hyperlink = none
    ∧ (groupMemberRow layers g m).grp.hyperlink = none
    ∧ (groupMemberRow layers g m).gtitle.hyperlink = none
    ∧ (groupMemberRow layers g m).typ.hyperlink = none
    ∧ (groupMemberRow layers g m).member.hyperlink = none
    ∧ (groupMemberRow layers g m).ctitle.hyperlink = none
    ∧ (groupMemberRow layers g m).sty.hyperlink = none := by
  unfold groupMemberRow
  cases layers.find? (fun l => l.name == m) <;> simp [vcell]

/-- C4 amended: over a group sub-sheet row, the annotation pass annotates
exactly the Workspace, Store, Group, Layer and Style columns, each cell of
those columns carrying a hyperlink precisely when its value is a key of
the corresponding sheet, pointing at an existing data row of that sheet
holding the key; the Group title, Child title and Type columns are never
annotated; the member cell of a row classified `Layer Group` is annotated
against the Layer Groups sheet through its `cgs:`-stripped value instead.
The layer-key hypothesis says that every key of the Layers sheet key
column is the name of a known layer. -/
theorem cross_reference_resolver
    (wsK stK gpK lyK syK : List String) (lgSheet : List (String × String))
    (layers : List LayerRec) (g : GroupRec) (m : String)
    (hly1 : ∀ x ∈ lyK, ∃ l ∈ layers, l.name = x) :
    AnnotatedTo wsK wsAddr (pctRow lgSheet (groupMemberRow layers g m)).ws.value
      (lgLinkRow gpK (link_columns_row wsK stK gpK lyK syK
        (pctRow lgSheet (groupMemberRow layers g m)))).ws
    ∧ AnnotatedTo stK stAddr (pctRow lgSheet (groupMemberRow layers g m)).store.value
      (lgLinkRow gpK (link_columns_row wsK stK gpK lyK syK
        (pctRow lgSheet (groupMemberRow layers g m)))).store
    ∧ AnnotatedTo gpK gpAddr (pctRow lgSheet (groupMemberRow layers g m)).grp.value
      (lgLinkRow gpK (link_columns_row wsK stK gpK lyK syK
        (pctRow lgSheet (groupMemberRow layers g m)))).grp
    ∧ AnnotatedTo syK syAddr (pctRow lgSheet (groupMemberRow layers g m)).sty.value
      (lgLinkRow gpK (link_columns_row wsK stK gpK lyK syK
        (pctRow lgSheet (groupMemberRow layers g m)))).sty
    ∧ (lgLinkRow gpK (link_columns_row wsK stK gpK lyK syK
        (pctRow lgSheet (groupMemberRow layers g m)))).gtitle.hyperlink = none
    ∧ (lgLinkRow gpK (link_columns_row wsK stK gpK lyK syK
        (pctRow lgSheet (groupMemberRow layers g m)))).ctitle.hyperlink = none
    ∧ (lgLinkRow gpK (link_columns_row wsK stK gpK lyK syK
        (pctRow lgSheet (groupMemberRow layers g m)))).typ.hyperlink = none
    ∧ ((∃ l ∈ layers, l.name = m) → AnnotatedTo lyK lyAddr m
      (lgLinkRow gpK (link_columns_row wsK stK gpK lyK syK
        (pctRow lgSheet (groupMemberRow layers g m)))).member)
    ∧ ((∀ l ∈ layers, l.name ≠ m) → AnnotatedTo gpK gpAddr (strip_cgs m)
      (lgLinkRow gpK (link_columns_row wsK stK gpK lyK syK
        (pctRow lgSheet (groupMemberRow layers g m)))).member) := by
  obtain ⟨pws, pst, pgp, pgt, pty, pmem, psty, pct⟩ :=
    pctRow_fields lgSheet (groupMemberRow layers g m)
  obtain ⟨n0, n1, n2, n3, n4, n5, n6, n7⟩ := groupMemberRow_no_hyperlinks layers g m
  have spec := link_passes_spec wsK stK gpK lyK syK
    (pctRow lgSheet (groupMemberRow layers g m))
    (pws ▸ n0) (pst ▸ n1) (pgp ▸ n2) (pgt ▸ n3) (pty ▸ n4) (pmem ▸ n5)
    (pct.trans n6) (psty ▸ n7)
  refine ⟨spec.1, spec.2.1, spec.2.2.1, spec.2.2.2.1, spec.2.2.2.2.1,
    spec.2.2.2.2.2.1, spec.2.2.2.2.2.2.1, ?_, ?_⟩
  · intro hex
    cases hfind : layers.find? (fun l => l.name == m) with
    | none =>
      exfalso
      obtain ⟨l, hl, hlname⟩ := hex
      have := List.find?_eq_none.mp hfind l hl
      simp [hlname] at this
    | some ml =>
      have hname : ml.name = m := by simpa using List.find?_some hfind
      have hty : (groupMemberRow layers g m).typ.value = "Layer" := by
        unfold groupMemberRow
        rw [hfind]
        rfl
      have hmv : (groupMemberRow layers g m).member.value = ml.name := by
        unfold groupMemberRow
        rw [hfind]
        rfl
      have hne : (pctRow lgSheet (groupMemberRow layers g m)).typ.value ≠ "Layer Group" := by
        rw [pty, hty]
        decide
      have concl := spec.2.2.2.2.2.2.2.1 hne
      rw [pmem, hmv, hname] at concl
      exact concl
  · intro hall
    have hfind : layers.find? (fun l => l.name == m) = none := by
      rw [List.find?_eq_none]
      intro l hl
      simpa using hall l hl
    have hty : (groupMemberRow layers g m).typ.value = "Layer Group" := by
      unfold groupMemberRow
      rw [hfind]
      rfl
    have hmv : (groupMemberRow layers g m).member.value = m := by
      unfold groupMemberRow
      rw [hfind]
      rfl
    have heq : (pctRow lgSheet (groupMemberRow layers g m)).typ.value = "Layer Group" := by
      rw [pty, hty]
    have hnot : (pctRow lgSheet (groupMemberRow layers g m)).member.value ∉ lyK := by
      rw [pmem, hmv]
      intro hmem
      obtain ⟨l, hl, hlname⟩ := hly1 m hmem
      exact hall l hl hlname
    have concl := spec.2.2.2.2.2.2.2.2 heq hnot
    rw [pmem, hmv] at concl
    exact concl

/-- C4 counterexample data: a group whose title happens to equal the name
of a known workspace, and a group whose single member is the
prefix-qualified name `cgs:g3`. -/
def groupC4 : GroupRec :=
  { workspace_name := "w9", group_name := "g9", title := "T", crs := "N/A",
    bounds := "b", mode := "single", layers := "ghost" }

/-- The second C4 counterexample group, whose member string is `cgs:g3`. -/
def groupC4b : GroupRec :=
  { workspace_name := "w9", group_name := "g8", title := "T8", crs := "N/A",
    bounds := "b", mode := "single", layers := "cgs:g3" }

/-- C4 counterexample: first, a Group-title cell whose value `T` is a
known workspace key receives no annotation, because the pass only touches
five designated columns; second, a member cell whose value `cgs:g3`
matches no known key of any sheet nevertheless receives an annotation,
through the `cgs:`-stripped lookup. -/
theorem cross_reference_resolver_counterexample :
    ((pctRow [] (groupMemberRow [] groupC4 "ghost")).gtitle.value ∈ (["T"] : List String)
      ∧ (lgLinkRow [] (link_columns_row ["T"] [] [] [] []
          (pctRow [] (groupMemberRow [] groupC4 "ghost")))).gtitle.hyperlink = none)
    ∧ ((lgLinkRow ["g3"] (link_columns_row [] [] ["g3"] [] []
          (pctRow [("g3", "T3")] (groupMemberRow [] groupC4b "cgs:g3")))).member.value
        = "cgs:g3"
      ∧ ("cgs:g3" : String) ∉ (["g3"] : List String)
      ∧ (lgLinkRow ["g3"] (link_columns_row [] [] ["g3"] [] []
          (pctRow [("g3", "T3")] (groupMemberRow [] groupC4b "cgs:g3")))).member.hyperlink
        ≠ none) := by
  refine ⟨⟨by decide, by decide⟩, by decide, by decide, by decide⟩

/-- Witness for C4 amended: on a concrete one-workspace catalog the
Workspace cell of the synthesized row follows the cross-reference
contract of the Workspaces sheet. -/
theorem cross_reference_resolver_witness :
    AnnotatedTo ["w1"] wsAddr
      (pctRow [("g1", "G")] (groupMemberRow [layerC2] groupC2 "L1")).ws.value
      (lgLinkRow ["g1"] (link_columns_row ["w1"] ["st1"] ["g1"] ["L1"] ["s1"]
        (pctRow [("g1", "G")] (groupMemberRow [layerC2] groupC2 "L1")))).ws :=
  (cross_reference_resolver ["w1"] ["st1"] ["g1"] ["L1"] ["s1"] [("g1", "G")]
    [layerC2] groupC2 "L1" (by decide)).1

/-! ### Report model builder sort orders (lines 55, 131 and 161)

Python `sorted` with a tuple key is a deterministic comparison sort; it is
embedded as a merge sort over the lexicographic order of the key, with
tuple keys modelled as equal-length string lists under the lexicographic
list order. -/

/-- Store record of `fetch_store_details` (lines 45 to 57). -/
structure StoreRec where
  workspace_name : String
  store_name : String
  store_url : String
deriving DecidableEq, Repr

/-- Sort key of line 55: the pair of workspace name and store name. -/
def storeKey (s : StoreRec) : List String := [s.workspace_name, s.store_name]

/-- Sort key of line 161: workspace, store, group and layer name. -/
def layerKey (l : LayerRec) : List String :=
  [l.workspace_name, l.store, l.group_name, l.name]

/-- Embedding of the sort of line 55. -/
def sortStores (l : List StoreRec) : List StoreRec :=
  l.mergeSort (fun a b => decide (storeKey a ≤ storeKey b))

/-- Embedding of the sort of line 161. -/
def sortLayers (l : List LayerRec) : List LayerRec :=
  l.mergeSort (fun a b => decide (layerKey a ≤ layerKey b))

/-- Embedding of the sort of line 131, keyed by group name alone. -/
def sortGroups (l : List GroupRec) : List GroupRec :=
  l.mergeSort (fun a b => decide (a.group_name ≤ b.group_name))

theorem pairwise_key_mergeSort {α κ : Type} [LinearOrder κ] (k : α → κ) (l : List α) :
    List.Pairwise (fun a b => k a ≤ k b)
      (l.mergeSort (fun a b => decide (k a ≤ k b))) := by
  have h := @List.sorted_mergeSort α (fun a b => decide (k a ≤ k b))
    (fun a b c hab hbc => by
      simp only [decide_eq_true_eq] at *
      exact le_trans hab hbc)
    (fun a b => by
      simp only [Bool.or_eq_true, decide_eq_true_eq]
      exact le_total (k a) (k b))
    l
  exact h.imp (fun hab => by simpa using hab)

/-! ### Claim C5 -/

/-- C5: the report model builder orders stores by the pair of workspace
and store name, layers by the quadruple of workspace, store, owning group
and layer name, and layer groups by group name, each output being a
permutation of its input; and being pure functions, the sorts return the
identical row order when re-run on identical normalized input. -/
theorem report_model_builder_sorts (stores : List StoreRec)
    (layers : List LayerRec) (groups : List GroupRec) :
    List.Pairwise (fun a b => storeKey a ≤ storeKey b) (sortStores stores)
    ∧ (sortStores stores).Perm stores
    ∧ List.Pairwise (fun a b => layerKey a ≤ layerKey b) (sortLayers layers)
    ∧ (sortLayers layers).Perm layers
    ∧ List.Pairwise (fun a b => a.group_name ≤ b.group_name) (sortGroups groups)
    ∧ (sortGroups groups).Perm groups
    ∧ sortStores stores = sortStores stores
    ∧ sortLayers layers = sortLayers layers
    ∧ sortGroups groups = sortGroups groups := by
  refine ⟨?_, ?_, ?_, ?_, ?_, ?_, rfl, rfl, rfl⟩
  · exact pairwise_key_mergeSort storeKey stores
  · exact List.mergeSort_perm stores _
  · exact pairwise_key_mergeSort layerKey layers
  · exact List.mergeSort_perm layers _
  · exact pairwise_key_mergeSort (fun g : GroupRec => g.group_name) groups
  · exact List.mergeSort_perm groups _

end Gs2xls
